import Mathlib

/-!
Shallow embedding of the `viz` configuration-file viewer (source: `src/app.rs`),
together with the value model and renderer specified for the out-of-src modules
(`values.rs`, `prints.rs`, `processors/*`).
-/

namespace Viz

/-- Modelled from the spec: `VizValue` (defined in the absent `values.rs`) is the
closed tagged union of §3 — `Null`, `Bool`, `Number` (decimal-preserving, carried
here as its printed decimal text), `String`, ordered `Array`, and `Object` as an
ordered association list of key/value pairs. -/
inductive VizValue where
  | null : VizValue
  | bool (b : Bool) : VizValue
  | num (s : String) : VizValue
  | str (s : String) : VizValue
  | arr (elems : List VizValue) : VizValue
  | obj (entries : List (String × VizValue)) : VizValue


/-- `n` spaces, the indentation prefix of a rendered line. -/
def spaces (n : Nat) : String :=
  String.mk (List.replicate n ' ')

/-- A key or string payload wrapped in double quotes. -/
def quoted (s : String) : String :=
  "\"" ++ s ++ "\""

/-- Modelled from the spec: the inline (single-token) text of a scalar value —
`null`, `true`/`false`, the number's decimal text, the quoted string — and of
the empty containers, which §4.2 renders inline as `[]` / `{}`.  Only ever
applied to scalars and empty containers. -/
def atomText : VizValue → String
  | .null => "null"
  | .bool b => if b then "true" else "false"
  | .num s => s
  | .str s => quoted s
  | .arr _ => "[]"
  | .obj _ => "\x7b\x7d"

/-- Append a trailing comma to the last line of a block of lines. -/
def commafy : List String → List String
  | [] => []
  | [s] => [s ++ ","]
  | s :: rest => s :: commafy rest

mutual

/-- Modelled from the spec: the comma-free rendering of one array element
(§4.2 rules 1, 3, 5): a scalar or empty container is one indented line; a
non-empty container opens its bracket on the element's line, renders children
one step deeper, and closes the bracket at the element's own indentation. -/
def renderElemCore (step cur : Nat) (v : VizValue) : List String :=
  match v with
  | .arr (e :: es) =>
      (spaces cur ++ "[") ::
        (renderElems step (cur + step) (e :: es) ++ [spaces cur ++ "]"])
  | .obj (kv :: kvs) =>
      (spaces cur ++ "\x7b") ::
        (renderEntries step (cur + step) (kv :: kvs) ++ [spaces cur ++ "\x7d"])
  | v => [spaces cur ++ atomText v]
termination_by (sizeOf v, 0)

/-- Modelled from the spec: an array element with its trailing-comma flag —
the comma is appended to the element's final line exactly when the element is
not the last of its container (§4.2 rule 4). -/
def renderElem (step cur : Nat) (last : Bool) (v : VizValue) : List String :=
  if last then renderElemCore step cur v else commafy (renderElemCore step cur v)
termination_by (sizeOf v, 1)

/-- Modelled from the spec: the comma-free rendering of one `"key": value`
pair (§4.2 rule 2 plus the container rules of rule 3). -/
def renderPairCore (step cur : Nat) (key : String) (v : VizValue) : List String :=
  match v with
  | .arr (e :: es) =>
      (spaces cur ++ quoted key ++ ": [") ::
        (renderElems step (cur + step) (e :: es) ++ [spaces cur ++ "]"])
  | .obj (kv :: kvs) =>
      (spaces cur ++ quoted key ++ ": \x7b") ::
        (renderEntries step (cur + step) (kv :: kvs) ++ [spaces cur ++ "\x7d"])
  | v => [spaces cur ++ quoted key ++ ": " ++ atomText v]
termination_by (sizeOf v, 0)

/-- Modelled from the spec: a key/value pair with its trailing-comma flag
(§4.2 rule 4). -/
def renderPair (step cur : Nat) (key : String) (last : Bool) (v : VizValue) :
    List String :=
  if last then renderPairCore step cur key v
  else commafy (renderPairCore step cur key v)
termination_by (sizeOf v, 1)

/-- Modelled from the spec: the elements of an array in order, the last one
flagged as last for comma suppression. -/
def renderElems (step cur : Nat) (vs : List VizValue) : List String :=
  match vs with
  | [] => []
  | [v] => renderElem step cur true v
  | v :: rest => renderElem step cur false v ++ renderElems step cur rest
termination_by (sizeOf vs, 2)

/-- Modelled from the spec: the key/value pairs of an object in insertion
order, the last one flagged as last for comma suppression. -/
def renderEntries (step cur : Nat) (kvs : List (String × VizValue)) :
    List String :=
  match kvs with
  | [] => []
  | [(k, v)] => renderPair step cur k true v
  | (k, v) :: rest => renderPair step cur k false v ++ renderEntries step cur rest
termination_by (sizeOf kvs, 2)

end

/-- What one program run writes: rendered stdout lines, error-channel
messages, and the process exit code. -/
structure RunOutput where
  lines : List String
  errors : List String
  exitCode : Nat


/-- `print_parsed_data` from `app.rs`: an `Object` root is rendered between a
literal opening and closing brace line, each entry passed to the pair renderer
with `current indent = indent` and its last-flag; any other root prints an
internal error and exits with status 1, emitting no rendering. -/
def print_parsed_data (data : VizValue) (indent : Nat) : RunOutput :=
  match data with
  | .obj entries =>
      { lines := "\x7b" :: (renderEntries indent indent entries ++ ["\x7d"])
        errors := []
        exitCode := 0 }
  | _ =>
      { lines := []
        errors := ["internal error: parsed data is not a valid object."]
        exitCode := 1 }

/-- `configure_colors` from `app.rs`: returns whether color output is enabled.
If the `NO_COLOR` environment variable is present (any value), color is forced
off; otherwise color is on exactly when the `no-color` flag is absent. -/
def configure_colors (noColorEnv : Option String) (noColorFlag : Bool) : Bool :=
  match noColorEnv with
  | some _ => false
  | none => !noColorFlag

/-- `get_from_stdin` from `app.rs`: the completed result of reading stdin to
a string, then the language-tag check.  A read failure is surfaced (with the
`failed to read from stdin` prefix) before the tag is ever consulted; a missing
tag after a successful read is the `language is not specified` error; otherwise
the contents are paired with exactly the supplied tag. -/
def get_from_stdin (stdinRead : Except String String) (language : Option String) :
    Except String (String × String) :=
  match stdinRead with
  | .error e => .error ("failed to read from stdin: " ++ e)
  | .ok contents =>
      match language with
      | some lang => .ok (contents, lang)
      | none => .error "language is not specified for stdin"

/-- Outcome of a fallible computation that may also crash (Rust panic). -/
inductive Outcome (α : Type) where
  | ok (a : α) : Outcome α
  | err (msg : String) : Outcome α
  | crash (msg : String) : Outcome α


/-- A file as `get_file_content` observes it: whether the path exists, the
result of `fs::read_to_string`, and `Path::extension()` (`none` when the file
name has no extension). -/
structure FsFile where
  present : Bool
  readResult : Except String String
  extension : Option String


/-- Character-wise lower-casing, embedding Rust's `str::to_lowercase`. -/
def lowerStr (s : String) : String :=
  String.mk (s.data.map Char.toLower)

/-- `get_file_content` from `app.rs`: missing path is the `file not found`
error; a read failure is surfaced with the `failed to read file` prefix; then
the extension is taken with `.unwrap()` — which panics when the file name has
no extension — and lower-cased. -/
def get_file_content (f : FsFile) : Outcome (String × String) :=
  if f.present = false then .err "file not found"
  else
    match f.readResult with
    | .error e => .err ("failed to read file: " ++ e)
    | .ok contents =>
        match f.extension with
        | some ext => .ok (contents, lowerStr ext)
        | none => .crash "called Option::unwrap() on a None value"

/-- `get_indent` from `app.rs`: the indent argument defaults to 2; values
above 10 are rejected with the ceiling-naming error, all others accepted. -/
def get_indent (indentArg : Option Nat) : Except String Nat :=
  let indent := indentArg.getD 2
  if indent > 10 then
    .error "indentation level must be less than or equal to 10."
  else
    .ok indent

/-- `get_parsed_data` from `app.rs`: dispatch on the format tag to the three
processors (absent from src, taken as parameters), any other tag being the
`unsupported file format.` error. -/
def get_parsed_data (jsonP tomlP yamlP : String → Except String VizValue)
    (contents extension : String) : Except String VizValue :=
  match extension with
  | "json" => jsonP contents
  | "toml" => tomlP contents
  | "yaml" => yamlP contents
  | "yml" => yamlP contents
  | _ => .error "unsupported file format."

/-- The command-line arguments `run` consults. -/
structure Args where
  path : Option String
  language : Option String
  indentArg : Option Nat
  noColorFlag : Bool

/-- The ambient process environment `run` consults: the `NO_COLOR` variable,
the result of reading stdin, and the filesystem keyed by path. -/
structure Env where
  noColor : Option String
  stdinRead : Except String String
  fileAt : String → FsFile

/-- `get_content_and_extension` from `app.rs`: an absent or empty `path`
argument selects stdin input, otherwise the file at that path. -/
def get_content_and_extension (env : Env) (args : Args) :
    Outcome (String × String) :=
  let filePath := args.path.getD ""
  if filePath = "" then
    match get_from_stdin env.stdinRead args.language with
    | .ok r => .ok r
    | .error e => .err e
  else
    get_file_content (env.fileAt filePath)

/-- Whether a string's final character is a comma — the formal reading of "this
line is followed by a trailing comma". -/
def endsComma (s : String) : Bool :=
  match s.data.getLast? with
  | some c => c == ','
  | none => false

/-- A value whose own (top-level) token cannot smuggle in a trailing comma: a
`num` payload must not end in a comma (real decimal texts never do); every
other variant's token ends in a fixed non-comma character. -/
def numTopOk : VizValue → Bool
  | .num s => !endsComma s
  | _ => true

/-- Whether a value is an `Object` at the root. -/
def isObjRoot : VizValue → Bool
  | .obj _ => true
  | _ => false

/-- The per-element line blocks of an array body, in order, the final element
rendered with the last-flag set. -/
def elemBlocks (step cur : Nat) : List VizValue → List (List String)
  | [] => []
  | [v] => [renderElem step cur true v]
  | v :: rest => renderElem step cur false v :: elemBlocks step cur rest

/-- The per-pair line blocks of an object body, in order, the final pair
rendered with the last-flag set. -/
def entryBlocks (step cur : Nat) : List (String × VizValue) → List (List String)
  | [] => []
  | [(k, v)] => [renderPair step cur k true v]
  | (k, v) :: rest => renderPair step cur k false v :: entryBlocks step cur rest

/-- The overall result of `run`: a completed run with its output, a returned
error (non-zero exit from `main`), or a panic. -/
inductive RunResult where
  | ok (out : RunOutput) : RunResult
  | err (msg : String) : RunResult
  | crash (msg : String) : RunResult


/-- `run` from `app.rs`: configure colors, acquire `(contents, extension)`,
validate the indent, parse, then render — each step short-circuiting on
error. -/
def run (env : Env) (args : Args)
    (jsonP tomlP yamlP : String → Except String VizValue) : RunResult :=
  match get_content_and_extension env args with
  | .crash m => .crash m
  | .err e => .err e
  | .ok (contents, extension) =>
      match get_indent args.indentArg with
      | .error e => .err e
      | .ok indent =>
          match get_parsed_data jsonP tomlP yamlP contents extension with
          | .error e => .err e
          | .ok data => .ok (print_parsed_data data indent)

/-! Helper lemmas about lines, commas and the renderer. -/

theorem commafy_concat (l : List String) (x : String) :
    commafy (l ++ [x]) = l ++ [x ++ ","] := by
  induction l with
  | nil => rfl
  | cons a t ih =>
      cases t with
      | nil => rfl
      | cons b u => exact congrArg (List.cons a) ih

theorem string_eq_empty_of_data_nil (t : String) (h : t.data = []) : t = "" := by
  cases t with
  | mk l => cases h; rfl

theorem endsComma_append_right (s t : String) (h : t.data ≠ []) :
    endsComma (s ++ t) = endsComma t := by
  unfold endsComma
  rw [String.data_append, List.getLast?_append]
  cases ht : t.data.getLast? with
  | none => exact absurd (List.getLast?_eq_none_iff.mp ht) h
  | some c => rw [Option.or_some]

theorem endsComma_spaces (n : Nat) : endsComma (spaces n) = false := by
  unfold endsComma spaces
  rw [show (String.mk (List.replicate n ' ')).data = List.replicate n ' ' from rfl]
  rw [List.getLast?_replicate]
  by_cases h : n = 0
  · rw [if_pos h]
  · rw [if_neg h]; rfl

theorem endsComma_comma_suffix (s : String) : endsComma (s ++ ",") = true := by
  rw [endsComma_append_right s "," (by decide)]; rfl

theorem quoted_data_ne_nil (s : String) : (quoted s).data ≠ [] := by
  unfold quoted
  rw [String.data_append]
  exact fun h => absurd (List.append_eq_nil.mp h).2 (by decide)

theorem endsComma_quoted (s : String) : endsComma (quoted s) = false := by
  unfold quoted
  rw [endsComma_append_right ("\"" ++ s) "\"" (by decide)]
  rfl

theorem endsComma_atom (v : VizValue) (h : numTopOk v = true) (p : String)
    (hp : endsComma p = false) : endsComma (p ++ atomText v) = false := by
  cases v with
  | null =>
      show endsComma (p ++ "null") = false
      rw [endsComma_append_right p "null" (by decide)]; rfl
  | bool b =>
      cases b with
      | true =>
          show endsComma (p ++ "true") = false
          rw [endsComma_append_right p "true" (by decide)]; rfl
      | false =>
          show endsComma (p ++ "false") = false
          rw [endsComma_append_right p "false" (by decide)]; rfl
  | num s =>
      show endsComma (p ++ s) = false
      by_cases hs : s.data = []
      · rw [string_eq_empty_of_data_nil s hs, String.append_empty]
        exact hp
      · rw [endsComma_append_right p s hs]
        simpa [numTopOk] using h
  | str s =>
      show endsComma (p ++ quoted s) = false
      rw [endsComma_append_right p (quoted s) (quoted_data_ne_nil s)]
      exact endsComma_quoted s
  | arr es =>
      show endsComma (p ++ "[]") = false
      rw [endsComma_append_right p "[]" (by decide)]; rfl
  | obj es =>
      show endsComma (p ++ "\x7b\x7d") = false
      rw [endsComma_append_right p "\x7b\x7d" (by decide)]; rfl

theorem renderElemCore_ne_nil (step cur : Nat) (v : VizValue) :
    renderElemCore step cur v ≠ [] := by
  cases v with
  | arr es => cases es <;> simp [renderElemCore]
  | obj es => cases es <;> simp [renderElemCore]
  | null => simp [renderElemCore]
  | bool b => simp [renderElemCore]
  | num s => simp [renderElemCore]
  | str s => simp [renderElemCore]

theorem renderPairCore_ne_nil (step cur : Nat) (key : String) (v : VizValue) :
    renderPairCore step cur key v ≠ [] := by
  cases v with
  | arr es => cases es <;> simp [renderPairCore]
  | obj es => cases es <;> simp [renderPairCore]
  | null => simp [renderPairCore]
  | bool b => simp [renderPairCore]
  | num s => simp [renderPairCore]
  | str s => simp [renderPairCore]

theorem commafy_ne_nil (l : List String) (h : l ≠ []) : commafy l ≠ [] := by
  rcases List.eq_nil_or_concat l with rfl | ⟨L, b, rfl⟩
  · exact absurd rfl h
  · rw [List.concat_eq_append, commafy_concat]
    exact fun hc => absurd hc (List.append_ne_nil_of_right_ne_nil L (by simp))

theorem commafy_getLastD (l : List String) (h : l ≠ []) :
    (commafy l).getLastD "" = l.getLastD "" ++ "," := by
  rcases List.eq_nil_or_concat l with rfl | ⟨L, b, rfl⟩
  · exact absurd rfl h
  · rw [List.concat_eq_append, commafy_concat, List.getLastD_concat,
      List.getLastD_concat]

theorem endsComma_last_renderElemCore (step cur : Nat) (v : VizValue)
    (h : numTopOk v = true) :
    endsComma ((renderElemCore step cur v).getLastD "") = false := by
  cases v with
  | arr es =>
      cases es with
      | nil =>
          simp only [renderElemCore]
          exact endsComma_atom (.arr []) rfl (spaces cur) (endsComma_spaces cur)
      | cons e es' =>
          simp only [renderElemCore]
          rw [← List.cons_append, List.getLastD_concat,
            endsComma_append_right (spaces cur) "]" (by decide)]
          rfl
  | obj es =>
      cases es with
      | nil =>
          simp only [renderElemCore]
          exact endsComma_atom (.obj []) rfl (spaces cur) (endsComma_spaces cur)
      | cons kv kvs =>
          simp only [renderElemCore]
          rw [← List.cons_append, List.getLastD_concat,
            endsComma_append_right (spaces cur) "\x7d" (by decide)]
          rfl
  | null =>
      simp only [renderElemCore]
      exact endsComma_atom .null rfl (spaces cur) (endsComma_spaces cur)
  | bool b =>
      simp only [renderElemCore]
      exact endsComma_atom (.bool b) rfl (spaces cur) (endsComma_spaces cur)
  | num s =>
      simp only [renderElemCore]
      exact endsComma_atom (.num s) h (spaces cur) (endsComma_spaces cur)
  | str s =>
      simp only [renderElemCore]
      exact endsComma_atom (.str s) rfl (spaces cur) (endsComma_spaces cur)

theorem endsComma_pair_lead (cur : Nat) (key : String) :
    endsComma (spaces cur ++ quoted key ++ ": ") = false := by
  rw [endsComma_append_right (spaces cur ++ quoted key) ": " (by decide)]
  rfl

theorem endsComma_last_renderPairCore (step cur : Nat) (key : String)
    (v : VizValue) (h : numTopOk v = true) :
    endsComma ((renderPairCore step cur key v).getLastD "") = false := by
  cases v with
  | arr es =>
      cases es with
      | nil =>
          simp only [renderPairCore]
          exact endsComma_atom (.arr []) rfl (spaces cur ++ quoted key ++ ": ")
            (endsComma_pair_lead cur key)
      | cons e es' =>
          simp only [renderPairCore]
          rw [← List.cons_append, List.getLastD_concat,
            endsComma_append_right (spaces cur) "]" (by decide)]
          rfl
  | obj es =>
      cases es with
      | nil =>
          simp only [renderPairCore]
          exact endsComma_atom (.obj []) rfl (spaces cur ++ quoted key ++ ": ")
            (endsComma_pair_lead cur key)
      | cons kv kvs =>
          simp only [renderPairCore]
          rw [← List.cons_append, List.getLastD_concat,
            endsComma_append_right (spaces cur) "\x7d" (by decide)]
          rfl
  | null =>
      simp only [renderPairCore]
      exact endsComma_atom .null rfl (spaces cur ++ quoted key ++ ": ")
        (endsComma_pair_lead cur key)
  | bool b =>
      simp only [renderPairCore]
      exact endsComma_atom (.bool b) rfl (spaces cur ++ quoted key ++ ": ")
        (endsComma_pair_lead cur key)
  | num s =>
      simp only [renderPairCore]
      exact endsComma_atom (.num s) h (spaces cur ++ quoted key ++ ": ")
        (endsComma_pair_lead cur key)
  | str s =>
      simp only [renderPairCore]
      exact endsComma_atom (.str s) rfl (spaces cur ++ quoted key ++ ": ")
        (endsComma_pair_lead cur key)

theorem renderElems_eq_flatten (step cur : Nat) (vs : List VizValue) :
    renderElems step cur vs = (elemBlocks step cur vs).flatten := by
  induction vs with
  | nil => simp [renderElems, elemBlocks]
  | cons v rest ih =>
      cases rest with
      | nil => simp [renderElems, elemBlocks]
      | cons w ws => simp only [renderElems, elemBlocks, List.flatten_cons, ← ih]

theorem renderEntries_eq_flatten (step cur : Nat) (kvs : List (String × VizValue)) :
    renderEntries step cur kvs = (entryBlocks step cur kvs).flatten := by
  induction kvs with
  | nil => simp [renderEntries, entryBlocks]
  | cons kv rest ih =>
      obtain ⟨k, v⟩ := kv
      cases rest with
      | nil => simp [renderEntries, entryBlocks]
      | cons kw kws => simp only [renderEntries, entryBlocks, List.flatten_cons, ← ih]

theorem renderElem_ne_nil (step cur : Nat) (last : Bool) (v : VizValue) :
    renderElem step cur last v ≠ [] := by
  cases last with
  | true => simpa [renderElem] using renderElemCore_ne_nil step cur v
  | false =>
      simpa [renderElem] using
        commafy_ne_nil (renderElemCore step cur v) (renderElemCore_ne_nil step cur v)

theorem renderPair_ne_nil (step cur : Nat) (key : String) (last : Bool)
    (v : VizValue) : renderPair step cur key last v ≠ [] := by
  cases last with
  | true => simpa [renderPair] using renderPairCore_ne_nil step cur key v
  | false =>
      simpa [renderPair] using
        commafy_ne_nil (renderPairCore step cur key v)
          (renderPairCore_ne_nil step cur key v)

theorem entryBlocks_mem_ne_nil (step cur : Nat)
    (kvs : List (String × VizValue)) :
    ∀ b ∈ entryBlocks step cur kvs, b ≠ [] := by
  induction kvs with
  | nil => intro b hb; simp [entryBlocks] at hb
  | cons kv rest ih =>
      obtain ⟨k, v⟩ := kv
      cases rest with
      | nil =>
          intro b hb
          rw [show entryBlocks step cur [(k, v)] = [renderPair step cur k true v]
            from rfl] at hb
          rw [List.mem_singleton.mp hb]
          exact renderPair_ne_nil step cur k true v
      | cons kw kws =>
          intro b hb
          rw [show entryBlocks step cur ((k, v) :: kw :: kws)
              = renderPair step cur k false v :: entryBlocks step cur (kw :: kws)
            from rfl] at hb
          rcases List.mem_cons.mp hb with rfl | hmem
          · exact renderPair_ne_nil step cur k false v
          · exact ih b hmem

/-- Sanity check against the spec's worked scenario: the object for
`{"a":1,"b":[true,null]}` at indent 2 renders exactly the seven lines shown
in §8. -/
theorem scenario_nested_render :
    (print_parsed_data
        (.obj [("a", .num "1"), ("b", .arr [.bool true, .null])]) 2).lines
      = ["\x7b", "  \"a\": 1,", "  \"b\": [", "    true,", "    null", "  ]",
         "\x7d"] := by
  simp [print_parsed_data, renderEntries, renderPair, renderPairCore,
    renderElems, renderElem, renderElemCore, atomText, spaces, quoted, commafy]

/-! The claims. -/

/-- Claim C1 (evidence of the code bug): on file input the extension is
lower-cased to form the tag and an unrecognized tag yields the returned error
`unsupported file format.` — but a present, readable file whose name has no
extension makes `get_file_content` panic at `extension().unwrap()` instead of
returning that error. -/
theorem c1_missing_extension_panics :
    get_file_content ⟨true, Except.ok "k = 1", none⟩
      = Outcome.crash "called Option::unwrap() on a None value"
    ∧ get_file_content ⟨true, Except.ok "k = 1", some "JSON"⟩
      = Outcome.ok ("k = 1", "json")
    ∧ get_parsed_data (fun _ => Except.error "p") (fun _ => Except.error "p")
        (fun _ => Except.error "p") "k = 1" "txt"
      = Except.error "unsupported file format." :=
  ⟨rfl, rfl, rfl⟩

/-- Claim C2: a set `NO_COLOR` environment variable (any value) forces color
off regardless of the flag; with it unset, color is on exactly when the
`no-color` flag is not given. -/
theorem c2_no_color_env_overrides_flag :
    (∀ (v : String) (flag : Bool), configure_colors (some v) flag = false)
    ∧ (∀ flag : Bool, configure_colors none flag = (!flag)) :=
  ⟨fun _ _ => rfl, fun _ => rfl⟩

/-- Claim C3: every indent value in 0–10 is accepted, every value above 10 is
rejected with the error naming the 10-level ceiling; in `run` the rejection
happens after input acquisition (an acquisition error wins) and before the
format adapter is invoked (the result is the indent error for arbitrary
parsers). -/
theorem c3_indent_validated_before_parsing :
    (∀ n : Nat, n ≤ 10 → get_indent (some n) = Except.ok n)
    ∧ (∀ n : Nat, 10 < n → get_indent (some n)
        = Except.error "indentation level must be less than or equal to 10.")
    ∧ (∀ (env : Env) (args : Args) jsonP tomlP yamlP (c e : String) (n : Nat),
        args.indentArg = some n → 10 < n →
        get_content_and_extension env args = Outcome.ok (c, e) →
        run env args jsonP tomlP yamlP
          = RunResult.err "indentation level must be less than or equal to 10.")
    ∧ (∀ (env : Env) (args : Args) jsonP tomlP yamlP (m : String),
        get_content_and_extension env args = Outcome.err m →
        run env args jsonP tomlP yamlP = RunResult.err m) := by
  refine ⟨?_, ?_, ?_, ?_⟩
  · intro n h
    have h' : ¬ (n > 10) := by omega
    simp [get_indent, h']
  · intro n h
    simp [get_indent, h]
  · intro env args jP tP yP c e n hn hlt hok
    simp [run, hok, hn, get_indent, hlt]
  · intro env args jP tP yP m hm
    simp [run, hm]

/-- Witness for C3 at concrete inputs: indent 3 is accepted, and a run with
indent 11 and a successfully acquired file is rejected with the ceiling
error. -/
theorem c3_witness :
    get_indent (some 3) = Except.ok 3
    ∧ run ⟨none, Except.error "closed", fun _ => ⟨true, Except.ok "x", some "json"⟩⟩
        ⟨some "f.json", none, some 11, false⟩
        (fun _ => Except.ok (.obj [])) (fun _ => Except.ok (.obj []))
        (fun _ => Except.ok (.obj []))
        = RunResult.err "indentation level must be less than or equal to 10." :=
  ⟨c3_indent_validated_before_parsing.1 3 (by decide),
   c3_indent_validated_before_parsing.2.2.1 _ _ _ _ _ "x" "json" 11 rfl
     (by decide) rfl⟩

/-- Claim C4: a non-`Object` root is reported as an internal error with exit
code 1 and no rendered lines; an `Object` root produces no error and exit
code 0. -/
theorem c4_root_must_be_object :
    (∀ (i : Nat) (entries : List (String × VizValue)),
        (print_parsed_data (.obj entries) i).errors = []
        ∧ (print_parsed_data (.obj entries) i).exitCode = 0)
    ∧ (∀ (i : Nat) (v : VizValue), isObjRoot v = false →
        print_parsed_data v i
          = ⟨[], ["internal error: parsed data is not a valid object."], 1⟩) := by
  constructor
  · intro i entries
    exact ⟨rfl, rfl⟩
  · intro i v h
    cases v with
    | obj entries => simp [isObjRoot] at h
    | null => rfl
    | bool b => rfl
    | num s => rfl
    | str s => rfl
    | arr es => rfl

/-- Witness for C4: a bare-array root at indent 2 yields exactly the internal
error, exit code 1 and no lines. -/
theorem c4_witness :
    print_parsed_data (.arr []) 2
      = ⟨[], ["internal error: parsed data is not a valid object."], 1⟩ :=
  c4_root_must_be_object.2 2 (.arr []) rfl

/-- Claim C5: stdin input without a language tag fails with the
missing-tag error — and in `run` no parsing or rendering is attempted, for
arbitrary parsers; with a tag, the stdin text is paired with exactly that
tag. -/
theorem c5_stdin_tag_required :
    (∀ s : String, get_from_stdin (Except.ok s) none
        = Except.error "language is not specified for stdin")
    ∧ (∀ s l : String, get_from_stdin (Except.ok s) (some l) = Except.ok (s, l))
    ∧ (∀ (env : Env) (args : Args) jsonP tomlP yamlP (s : String),
        args.path.getD "" = "" → args.language = none →
        env.stdinRead = Except.ok s →
        run env args jsonP tomlP yamlP
          = RunResult.err "language is not specified for stdin") := by
  refine ⟨fun _ => rfl, fun _ _ => rfl, ?_⟩
  intro env args jP tP yP s hp hl hs
  simp [run, get_content_and_extension, hp, hl, hs, get_from_stdin]

/-- Witness for C5: a run on piped stdin with no language tag fails with the
missing-tag error. -/
theorem c5_witness :
    run ⟨none, Except.ok "a: 1", fun _ => ⟨false, Except.error "closed", none⟩⟩
        ⟨none, none, none, false⟩
        (fun _ => Except.ok (.obj [])) (fun _ => Except.ok (.obj []))
        (fun _ => Except.ok (.obj []))
      = RunResult.err "language is not specified for stdin" :=
  c5_stdin_tag_required.2.2 _ _ _ _ _ "a: 1" rfl rfl rfl

/-- Claim C6: at every nesting depth (every `step`, `cur`), a non-last element
or pair renders as the last-flagged rendering with a comma appended to its
final line; the last-flagged rendering's final line does not end in a comma,
the non-last one's does, and both renderings are non-empty.  The hypothesis
only excludes a number token that itself ends in a comma. -/
theorem c6_trailing_comma_suppression (step cur : Nat) (key : String)
    (v : VizValue) (h : numTopOk v = true) :
    renderElem step cur false v = commafy (renderElem step cur true v)
    ∧ renderPair step cur key false v = commafy (renderPair step cur key true v)
    ∧ renderElem step cur true v ≠ []
    ∧ renderPair step cur key true v ≠ []
    ∧ endsComma ((renderElem step cur true v).getLastD "") = false
    ∧ endsComma ((renderPair step cur key true v).getLastD "") = false
    ∧ endsComma ((renderElem step cur false v).getLastD "") = true
    ∧ endsComma ((renderPair step cur key false v).getLastD "") = true := by
  have her : renderElem step cur true v = renderElemCore step cur v := by
    simp [renderElem]
  have hef : renderElem step cur false v
      = commafy (renderElemCore step cur v) := by
    simp [renderElem]
  have hpr : renderPair step cur key true v = renderPairCore step cur key v := by
    simp [renderPair]
  have hpf : renderPair step cur key false v
      = commafy (renderPairCore step cur key v) := by
    simp [renderPair]
  refine ⟨?_, ?_, ?_, ?_, ?_, ?_, ?_, ?_⟩
  · rw [hef, her]
  · rw [hpf, hpr]
  · rw [her]; exact renderElemCore_ne_nil step cur v
  · rw [hpr]; exact renderPairCore_ne_nil step cur key v
  · rw [her]; exact endsComma_last_renderElemCore step cur v h
  · rw [hpr]; exact endsComma_last_renderPairCore step cur key v h
  · rw [hef, commafy_getLastD _ (renderElemCore_ne_nil step cur v)]
    exact endsComma_comma_suffix _
  · rw [hpf, commafy_getLastD _ (renderPairCore_ne_nil step cur key v)]
    exact endsComma_comma_suffix _

/-- Witness for C6 at a concrete nested value: the non-last rendering is the
comma-appended last rendering, and the last rendering's final line carries no
comma. -/
theorem c6_witness :
    numTopOk (VizValue.arr [VizValue.bool true, VizValue.null]) = true
    ∧ renderElem 2 4 false (VizValue.arr [VizValue.bool true, VizValue.null])
      = commafy (renderElem 2 4 true (VizValue.arr [VizValue.bool true, VizValue.null]))
    ∧ endsComma ((renderElem 2 4 true
        (VizValue.arr [VizValue.bool true, VizValue.null])).getLastD "") = false :=
  ⟨by decide,
   (c6_trailing_comma_suppression 2 4 "k"
     (VizValue.arr [VizValue.bool true, VizValue.null]) (by decide)).1,
   (c6_trailing_comma_suppression 2 4 "k"
     (VizValue.arr [VizValue.bool true, VizValue.null]) (by decide)).2.2.2.2.1⟩

/-- Claim C7: an `Object` root renders as a literal opening-brace line, then
the pair blocks in order (each pair contributing its own non-empty block of
lines, with nothing wrapped around them), then a literal closing-brace line;
no error is reported and the exit code is 0. -/
theorem c7_top_level_object_shape (i : Nat)
    (entries : List (String × VizValue)) :
    (print_parsed_data (.obj entries) i).lines
      = "\x7b" :: ((entryBlocks i i entries).flatten ++ ["\x7d"])
    ∧ (∀ b ∈ entryBlocks i i entries, b ≠ [])
    ∧ (print_parsed_data (.obj entries) i).errors = []
    ∧ (print_parsed_data (.obj entries) i).exitCode = 0 := by
  refine ⟨?_, entryBlocks_mem_ne_nil i i entries, rfl, rfl⟩
  show "\x7b" :: (renderEntries i i entries ++ ["\x7d"]) = _
  rw [renderEntries_eq_flatten]

/-- Witness for C7 at a one-pair object: the rendered lines decompose as brace
line, pair block, brace line, and the pair's block is non-empty. -/
theorem c7_witness :
    (print_parsed_data (VizValue.obj [("a", VizValue.num "1")]) 2).lines
      = "\x7b" :: ((entryBlocks 2 2 [("a", VizValue.num "1")]).flatten ++ ["\x7d"])
    ∧ renderPair 2 2 "a" true (VizValue.num "1") ≠ [] :=
  ⟨(c7_top_level_object_shape 2 [("a", VizValue.num "1")]).1,
   (c7_top_level_object_shape 2 [("a", VizValue.num "1")]).2.1 _
     (by simp [entryBlocks])⟩

/-- Claim C8: rendering is deterministic — identical value tree and identical
indent width give identical output (the embedding renders the color-free
structural text; color is resolved separately by `configure_colors`). -/
theorem c8_render_deterministic (t t' : VizValue) (i i' : Nat)
    (ht : t = t') (hi : i = i') :
    print_parsed_data t i = print_parsed_data t' i' := by
  subst ht; subst hi; rfl

/-- Witness for C8: two runs on the same concrete tree and indent coincide. -/
theorem c8_witness :
    print_parsed_data (VizValue.obj [("a", VizValue.num "1")]) 2
      = print_parsed_data (VizValue.obj [("a", VizValue.num "1")]) 2 :=
  c8_render_deterministic (VizValue.obj [("a", VizValue.num "1")])
    (VizValue.obj [("a", VizValue.num "1")]) 2 2 rfl rfl

/-- Claim C9: with no indent argument the indent defaults to 2 and passes
validation, and a run whose acquisition and parsing succeed renders with
indent 2. -/
theorem c9_default_indent_two :
    get_indent none = Except.ok 2
    ∧ (∀ (env : Env) (args : Args) jsonP tomlP yamlP (c e : String)
        (d : VizValue),
        args.indentArg = none →
        get_content_and_extension env args = Outcome.ok (c, e) →
        get_parsed_data jsonP tomlP yamlP c e = Except.ok d →
        run env args jsonP tomlP yamlP
          = RunResult.ok (print_parsed_data d 2)) := by
  constructor
  · rfl
  · intro env args jP tP yP c e d hi hok hparse
    simp [run, hok, hi, get_indent, hparse]

/-- Witness for C9: a run on a concrete JSON file with no indent argument
renders its parsed object with indent 2. -/
theorem c9_witness :
    run ⟨none, Except.error "closed", fun _ => ⟨true, Except.ok "x", some "json"⟩⟩
        ⟨some "c.json", none, none, false⟩
        (fun _ => Except.ok (.obj [("a", .num "1")]))
        (fun _ => Except.error "t") (fun _ => Except.error "y")
      = RunResult.ok (print_parsed_data (.obj [("a", .num "1")]) 2) :=
  c9_default_indent_two.2 _ _ _ _ _ "x" "json" (.obj [("a", .num "1")])
    rfl rfl rfl

/-- Claim C10: a stdin read failure is reported (with the read-failure
message) whatever the language tag says — in particular also when the tag is
missing — and the missing-tag error can only arise from a completed,
successful read with no tag supplied. -/
theorem c10_stdin_read_precedes_tag_check :
    (∀ (e : String) (lang : Option String),
        get_from_stdin (Except.error e) lang
          = Except.error ("failed to read from stdin: " ++ e))
    ∧ (∀ (r : Except String String) (lang : Option String),
        get_from_stdin r lang
            = Except.error "language is not specified for stdin" →
        (∃ c, r = Except.ok c) ∧ lang = none) := by
  constructor
  · intro e lang; rfl
  · intro r lang h
    cases r with
    | ok c =>
        cases lang with
        | some l => exact Except.noConfusion h
        | none => exact ⟨⟨c, rfl⟩, rfl⟩
    | error e =>
        exfalso
        have h' : "failed to read from stdin: " ++ e
            = "language is not specified for stdin" := by
          injection h
        have hd : ("failed to read from stdin: " ++ e).data.head?
            = "language is not specified for stdin".data.head? :=
          congrArg (fun s : String => s.data.head?) h'
        rw [show ("failed to read from stdin: " ++ e).data.head? = some 'f' by
          rw [String.data_append]; rfl] at hd
        exact absurd hd (by decide)

/-- Witness for C10: a concrete failing read is reported as the read error
even with no tag, and a concrete missing-tag error implies the read
succeeded. -/
theorem c10_witness :
    get_from_stdin (Except.error "boom") none
      = Except.error "failed to read from stdin: boom"
    ∧ (∃ c, (Except.ok "a: 1" : Except String String) = Except.ok c)
    ∧ (none : Option String) = none :=
  ⟨c10_stdin_read_precedes_tag_check.1 "boom" none,
   c10_stdin_read_precedes_tag_check.2 (Except.ok "a: 1") none rfl⟩

end Viz
